import Mathlib

/-
Shallow embedding of the FlutterCodeMentor asynchronous review pipeline.

Sources embedded here:
- internal/domain/models.go            (data model; Go string enums kept as String,
                                        time.Time modelled as Int, float64 as Rat)
- internal/usecase review use case     (ProcessPendingSubmissions, processSubmission,
                                        processCodeSubmission, processGitHubSubmission,
                                        saveReviewResult, githubURLPattern)
- internal/service AI service          (aiReviewResponse JSON decoding in ReviewCode)
- internal/repository/submission_repository.go (GetPendingSubmissions SQL query)
- internal/usecase/submission_usecase.go (validateSubmissionRequest URL pattern)

Store and collaborator calls are modelled by an explicit environment `Env` fixing
the outcome of each call, and each run produces a trace of `Event`s recording the
side effects it performs, in order.
-/

namespace FlutterCodeMentor

/-! ## Domain model (internal/domain/models.go) -/

/-- domain.StatusPending -/
def StatusPending : String := "pending"

/-- domain.StatusAIReviewed -/
def StatusAIReviewed : String := "ai_reviewed"

/-- domain.StatusTeacherReviewed -/
def StatusTeacherReviewed : String := "teacher_reviewed"

/-- domain.SubmissionTypeCode -/
def SubmissionTypeCode : String := "code"

/-- domain.SubmissionTypeGithubLink -/
def SubmissionTypeGithubLink : String := "github_link"

/-- domain.Submission (models.go). `time.Time` is an abstract instant modelled as Int,
`*float64` as Option Rat. Status and submission type are Go string types. -/
structure Submission where
  id : Int
  studentID : Int
  taskID : Int
  code : Option String
  githubURL : Option String
  submittedAt : Int
  score : Option Rat
  status : String
  submissionType : String
deriving DecidableEq

/-- domain.Task (models.go). -/
structure Task where
  id : Int
  courseID : Int
  title : String
  description : String
  deadline : Int
  maxScore : Int
  createdAt : Int
  updatedAt : Option Int
deriving DecidableEq

/-- domain.TaskCriteria (models.go). -/
structure TaskCriteria where
  id : Int
  taskID : Int
  criterionName : String
  criterionDescription : String
  isMandatory : Bool
  weight : Int
  createdAt : Int
deriving DecidableEq

/-- domain.CodeReview (models.go). -/
structure CodeReview where
  id : Int
  submissionID : Int
  aiModel : String
  overallStatus : String
  aiConfidence : Option Rat
  executionTimeMs : Option Int
  createdAt : Int
deriving DecidableEq

/-- domain.ReviewFeedback (models.go). -/
structure ReviewFeedback where
  id : Int
  reviewID : Int
  feedbackType : String
  filePath : Option String
  lineStart : Int
  lineEnd : Option Int
  codeSnippet : String
  suggestedFix : Option String
  description : String
  severity : Int
  isResolved : Bool
  teacherComment : Option String
  teacherApproved : Option Bool
  createdAt : Int
deriving DecidableEq

/-- service.FeedbackItem (ai_service.go). -/
structure FeedbackItem where
  feedbackType : String
  filePath : String
  lineStart : Int
  lineEnd : Int
  codeSnippet : String
  suggestedFix : String
  description : String
  severity : Int
deriving DecidableEq

/-- service.CodeReviewResult (ai_service.go). -/
structure CodeReviewResult where
  overallStatus : String
  aiConfidence : Rat
  executionTimeMs : Int
  feedbacks : List FeedbackItem
deriving DecidableEq

/-! ## Repository URL patterns

Two Go regular expressions are embedded as executable character-level matchers.
Both are fully anchored (`^...$`), so MatchString decides full-string membership.
RE2 `\w` is ASCII `[0-9A-Za-z_]`.
-/

/-- RE2 `\w`: ASCII letters, digits, underscore. -/
def isURLWordChar (c : Char) : Bool := c.isAlpha || c.isDigit || c = '_'

/-- Character class `[\w-]`, which equals `[a-zA-Z0-9_-]`. -/
def isOwnerChar (c : Char) : Bool := isURLWordChar c || c = '-'

/-- Character class `[\w.-]`. -/
def isRepoChar (c : Char) : Bool := isOwnerChar c || c = '.'

/-- Strip an expected literal leading sequence; `none` when the input does not
start with it. -/
def dropLeading : List Char → List Char → Option (List Char)
  | [], s => some s
  | _ :: _, [] => none
  | p :: ps, c :: cs => if c = p then dropLeading ps cs else none

/-- Split a character list at its first '/', returning the pieces before and
after it; `none` when no '/' occurs. -/
def breakAtSlash : List Char → Option (List Char × List Char)
  | [] => none
  | c :: cs =>
    if c = '/' then some ([], cs)
    else
      match breakAtSlash cs with
      | some (a, b) => some (c :: a, b)
      | none => none

/-- Tail of the review-workflow pattern after `github.com/`: `[\w-]+/[\w.-]+(?:\.git)?$`.
Since '.' lies in `[\w.-]`, the optional `.git` group is absorbed by the class:
the tail matches exactly when it is `owner/repo` with owner a nonempty `[\w-]` run
and repo a nonempty `[\w.-]` run. '/' belongs to neither class, so the split is at
the unique '/'. -/
def githubTailMatch (t : List Char) : Bool :=
  match breakAtSlash t with
  | some (o, r) => !o.isEmpty && o.all isOwnerChar && !r.isEmpty && r.all isRepoChar
  | none => false

/-- usecase `githubURLPattern` (review use case):
`^https?://github\.com/[\w-]+/[\w.-]+(?:\.git)?$`. -/
def githubURLPattern (s : String) : Bool :=
  match dropLeading "https://github.com/".data s.data with
  | some t => githubTailMatch t
  | none =>
    match dropLeading "http://github.com/".data s.data with
    | some t => githubTailMatch t
    | none => false

/-- Tail after the first '/' in the intake pattern: `([a-zA-Z0-9_-]+)/?$`,
i.e. a nonempty `[a-zA-Z0-9_-]` run optionally followed by one final '/'. -/
def intakeRepoTail (rest : List Char) : Bool :=
  match rest.getLast? with
  | none => false
  | some c =>
    if c = '/' then !rest.dropLast.isEmpty && rest.dropLast.all isOwnerChar
    else rest.all isOwnerChar

/-- The pattern checked by `validateSubmissionRequest` in submission_usecase.go:
`^https://github\.com/([a-zA-Z0-9_-]+)/([a-zA-Z0-9_-]+)/?$`. -/
def intakeGithubURLPattern (s : String) : Bool :=
  match dropLeading "https://github.com/".data s.data with
  | some t =>
    match breakAtSlash t with
    | some (o, rest) => !o.isEmpty && o.all isOwnerChar && intakeRepoTail rest
    | none => false
  | none => false

/-! ## Review workflow (review use case)

One run of `processSubmission` is modelled as a function of an environment that
fixes the outcome of every store and collaborator call. The run returns the Go
error result together with the ordered trace of side-effecting calls it issued.
-/

/-- The distinct error returns of the review workflow, one per `return err` site. -/
inductive PErr
  | checkExistingFailed
  | getTaskFailed
  | taskNotFound
  | getCriteriaFailed
  | unknownSubmissionType
  | noCode
  | noGithubURL
  | invalidGithubURL
  | cloneFailed
  | getDartFilesFailed
  | noDartFiles
  | readAllFilesFailed
  | aiReviewFailed
  | createReviewFailed
  | updateStatusFailed
deriving DecidableEq

/-- Observable calls issued by one workflow run, in program order. A
`createCodeReview`, `createReviewFeedback` or `updateStatus` event records that
the corresponding write was issued; whether it took effect is fixed by `Env`. -/
inductive Event
  | getExistingReview
  | getTask
  | getCriteria
  | callReviewCode
  | callReviewGitHubProject
  | callCloneRepository (url : String)
  | callGetDartFiles (repoPath : String)
  | callReadFile (path : String)
  | callCleanup (repoPath : String)
  | createCodeReview (review : CodeReview)
  | createReviewFeedback (feedback : ReviewFeedback)
  | updateStatus (submissionID : Int) (status : String)
deriving DecidableEq

/-- Outcomes of the store and collaborator calls available to one run.
`Except Unit` models a Go `(value, error)` pair; `createReviewFeedback` gives
per-row success of the feedback insert; `updateStatus` tells whether the final
status UPDATE succeeds. -/
structure Env where
  getExistingReview : Except Unit (Option CodeReview)
  getTask : Except Unit (Option Task)
  getCriteria : Except Unit (List TaskCriteria)
  reviewCode : Except Unit CodeReviewResult
  reviewGitHubProject : Except Unit CodeReviewResult
  cloneRepository : Except Unit String
  getDartFiles : Except Unit (List String)
  readFile : String → Except Unit String
  createCodeReview : Except Unit Int
  createReviewFeedback : ReviewFeedback → Bool
  updateStatus : Bool

/-- The file-reading loop of `processGitHubSubmission`: one ReadFile call per
listed Dart file, skipping (not aborting on) unreadable files, accumulating
relative path ↦ content in order. `filepath.Join` is modelled as "/"-joining. -/
def readDartFiles (env : Env) (repoPath : String) : List String → List (String × String) × List Event
  | [] => ([], [])
  | p :: ps =>
    let full := repoPath ++ "/" ++ p
    let rest := readDartFiles env repoPath ps
    match env.readFile full with
    | .error _ => (rest.1, .callReadFile full :: rest.2)
    | .ok content => ((p, content) :: rest.1, .callReadFile full :: rest.2)

/-- processCodeSubmission: require non-nil, nonempty code, then call the AI
reviewer. Task and criteria only shape the prompt, so the AI outcome comes from
`env.reviewCode`. -/
def processCodeSubmission (env : Env) (sub : Submission) (_task : Task)
    (_criteria : List TaskCriteria) : Except PErr CodeReviewResult × List Event :=
  match sub.code with
  | none => (.error .noCode, [])
  | some c =>
    if c = "" then (.error .noCode, [])
    else
      match env.reviewCode with
      | .error _ => (.error .aiReviewFailed, [.callReviewCode])
      | .ok r => (.ok r, [.callReviewCode])

/-- processGitHubSubmission: URL presence and shape checks, clone, deferred
Cleanup (appended to the trace on every exit path after a successful clone,
per Go `defer`), Dart-file listing, best-effort reads, AI call. -/
def processGitHubSubmission (env : Env) (sub : Submission) (_task : Task)
    (_criteria : List TaskCriteria) : Except PErr CodeReviewResult × List Event :=
  match sub.githubURL with
  | none => (.error .noGithubURL, [])
  | some url =>
    if url = "" then (.error .noGithubURL, [])
    else if !githubURLPattern url then (.error .invalidGithubURL, [])
    else
      match env.cloneRepository with
      | .error _ => (.error .cloneFailed, [.callCloneRepository url])
      | .ok repoPath =>
        match env.getDartFiles with
        | .error _ =>
          (.error .getDartFilesFailed,
            [.callCloneRepository url, .callGetDartFiles repoPath, .callCleanup repoPath])
        | .ok dartFiles =>
          if dartFiles = [] then
            (.error .noDartFiles,
              [.callCloneRepository url, .callGetDartFiles repoPath, .callCleanup repoPath])
          else
            let read := readDartFiles env repoPath dartFiles
            if read.1 = [] then
              (.error .readAllFilesFailed,
                [.callCloneRepository url, .callGetDartFiles repoPath] ++ read.2
                  ++ [.callCleanup repoPath])
            else
              match env.reviewGitHubProject with
              | .error _ =>
                (.error .aiReviewFailed,
                  [.callCloneRepository url, .callGetDartFiles repoPath] ++ read.2
                    ++ [.callReviewGitHubProject, .callCleanup repoPath])
              | .ok r =>
                (.ok r,
                  [.callCloneRepository url, .callGetDartFiles repoPath] ++ read.2
                    ++ [.callReviewGitHubProject, .callCleanup repoPath])

/-- The CodeReview row built at the top of saveReviewResult. -/
def mkCodeReview (submissionID : Int) (result : CodeReviewResult) : CodeReview :=
  { id := 0
    submissionID := submissionID
    aiModel := "deepseek"
    overallStatus := result.overallStatus
    aiConfidence := some result.aiConfidence
    executionTimeMs := some result.executionTimeMs
    createdAt := 0 }

/-- The ReviewFeedback row built for one FeedbackItem in saveReviewResult. -/
def mkReviewFeedback (reviewID : Int) (fb : FeedbackItem) : ReviewFeedback :=
  { id := 0
    reviewID := reviewID
    feedbackType := fb.feedbackType
    filePath := if fb.filePath = "" then none else some fb.filePath
    lineStart := fb.lineStart
    lineEnd := some fb.lineEnd
    codeSnippet := fb.codeSnippet
    suggestedFix := some fb.suggestedFix
    description := fb.description
    severity := fb.severity
    isResolved := false
    teacherComment := none
    teacherApproved := none
    createdAt := 0 }

/-- saveReviewResult: create the Review row; then issue one feedback insert per
item regardless of the fate of earlier inserts (a failed insert is logged and
skipped via `continue`); then issue the status UPDATE to ai_reviewed. -/
def saveReviewResult (env : Env) (submissionID : Int) (result : CodeReviewResult) :
    Except PErr Unit × List Event :=
  let review := mkCodeReview submissionID result
  match env.createCodeReview with
  | .error _ => (.error .createReviewFailed, [.createCodeReview review])
  | .ok reviewID =>
    let fbEvents := result.feedbacks.map fun fb =>
      Event.createReviewFeedback (mkReviewFeedback reviewID fb)
    let tr := Event.createCodeReview review ::
      (fbEvents ++ [Event.updateStatus submissionID StatusAIReviewed])
    if env.updateStatus then (.ok (), tr) else (.error .updateStatusFailed, tr)

/-- processSubmission: idempotency check, context load, branch by kind,
persist. Mirrors the Go control flow statement by statement. -/
def processSubmission (env : Env) (sub : Submission) : Except PErr Unit × List Event :=
  match env.getExistingReview with
  | .error _ => (.error .checkExistingFailed, [.getExistingReview])
  | .ok (some _) => (.ok (), [.getExistingReview])
  | .ok none =>
    match env.getTask with
    | .error _ => (.error .getTaskFailed, [.getExistingReview, .getTask])
    | .ok none => (.error .taskNotFound, [.getExistingReview, .getTask])
    | .ok (some task) =>
      match env.getCriteria with
      | .error _ => (.error .getCriteriaFailed, [.getExistingReview, .getTask, .getCriteria])
      | .ok criteria =>
        if sub.submissionType = SubmissionTypeCode then
          match processCodeSubmission env sub task criteria with
          | (.error e, btr) => (.error e, [.getExistingReview, .getTask, .getCriteria] ++ btr)
          | (.ok result, btr) =>
            let sres := saveReviewResult env sub.id result
            (sres.1, [.getExistingReview, .getTask, .getCriteria] ++ btr ++ sres.2)
        else if sub.submissionType = SubmissionTypeGithubLink then
          match processGitHubSubmission env sub task criteria with
          | (.error e, btr) => (.error e, [.getExistingReview, .getTask, .getCriteria] ++ btr)
          | (.ok result, btr) =>
            let sres := saveReviewResult env sub.id result
            (sres.1, [.getExistingReview, .getTask, .getCriteria] ++ btr ++ sres.2)
        else
          (.error .unknownSubmissionType, [.getExistingReview, .getTask, .getCriteria])

/-! ## Trace observations -/

/-- Does an event create a CodeReview row? -/
def isCreateReviewEvent : Event → Bool
  | .createCodeReview _ => true
  | _ => false

/-- Does an event create a ReviewFeedback row? -/
def isCreateFeedbackEvent : Event → Bool
  | .createReviewFeedback _ => true
  | _ => false

/-- Does an event write the submission status? -/
def isUpdateStatusEvent : Event → Bool
  | .updateStatus _ _ => true
  | _ => false

/-- Is the event a Cleanup call? -/
def isCleanupEvent : Event → Bool
  | .callCleanup _ => true
  | _ => false

/-- Is the event a CloneRepository call? -/
def isCloneEvent : Event → Bool
  | .callCloneRepository _ => true
  | _ => false

/-- Is the event an AI reviewer invocation (either entry point)? -/
def isAICallEvent : Event → Bool
  | .callReviewCode => true
  | .callReviewGitHubProject => true
  | _ => false

/-- One event is either not a status write, or writes exactly ai_reviewed. -/
def statusWriteOK (e : Event) : Bool :=
  match e with
  | .updateStatus _ st => st == StatusAIReviewed
  | _ => true

/-- Every status write in the trace carries exactly the value ai_reviewed. -/
def statusWritesOnlyAIReviewed (tr : List Event) : Bool :=
  tr.all statusWriteOK

/-- No event satisfying `p` occurs strictly after any event satisfying `q`.
For disjoint `p` and `q` this says every `p`-event precedes every `q`-event. -/
def noneAfter (p q : Event → Bool) : List Event → Bool
  | [] => true
  | e :: tr => (!q e || tr.all fun x => !p x) && noneAfter p q tr

/-- The submission status obtained by replaying a trace from an initial status:
a status write changes it only when the UPDATE succeeds per the environment. -/
def applyEvents (env : Env) (st0 : String) (tr : List Event) : String :=
  tr.foldl
    (fun st e =>
      match e with
      | .updateStatus _ s => if env.updateStatus then s else st
      | _ => st)
    st0

/-- Boolean test that an Except carries a value. -/
def isOkE {ε α : Type} : Except ε α → Bool
  | .ok _ => true
  | .error _ => false

/-- Boolean test that the createCodeReview call of the run succeeded. -/
def createReviewSucceeded (env : Env) : Bool :=
  match env.createCodeReview with
  | .ok _ => true
  | .error _ => false

/-- Events that touch neither Review rows nor feedback rows nor the status field. -/
def noWriterB (e : Event) : Bool :=
  !isCreateReviewEvent e && !isCreateFeedbackEvent e && !isUpdateStatusEvent e

/-- The GitHub reference fails the checks at the top of processGitHubSubmission:
absent, empty, or outside the accepted URL shape. -/
def urlRejected : Option String → Bool
  | none => true
  | some u => u == "" || !githubURLPattern u

/-! ## Batch fetch (submission_repository.go, GetPendingSubmissions)

The SQL query `WHERE status = 'pending' ORDER BY submitted_at ASC LIMIT 10` over
an abstract table state, embedded as filter, then a sort consistent with the
ORDER BY key, then LIMIT. -/

/-- The ORDER BY key of GetPendingSubmissions: oldest submitted first. -/
def oldestFirst (a b : Submission) : Prop := a.submittedAt ≤ b.submittedAt

instance : DecidableRel oldestFirst := fun a b => Int.decLe a.submittedAt b.submittedAt

instance : IsTotal Submission oldestFirst := ⟨fun a b => Int.le_total a.submittedAt b.submittedAt⟩

instance : IsTrans Submission oldestFirst := ⟨fun _ _ _ h1 h2 => le_trans h1 h2⟩

/-- GetPendingSubmissions over a table state given as a row list. -/
def getPendingSubmissions (db : List Submission) : List Submission :=
  (List.insertionSort oldestFirst (db.filter fun s => s.status == StatusPending)).take 10

/-- Adjacent rows are ordered oldest-submitted-first. -/
def sortedBySubmittedAt : List Submission → Bool
  | [] => true
  | [_] => true
  | a :: b :: t => decide (a.submittedAt ≤ b.submittedAt) && sortedBySubmittedAt (b :: t)

/-- The batch contract of one fetch: only pending rows, at most 10, oldest first,
and a pending row is omitted only when the batch is already full of rows no
younger than it. -/
def pendingBatchOK (db r : List Submission) : Bool :=
  r.all (fun s => s.status == StatusPending) &&
  decide (r.length ≤ 10) &&
  sortedBySubmittedAt r &&
  (db.all fun p =>
    !(p.status == StatusPending) || decide (p ∈ r) ||
      (decide (r.length = 10) && r.all fun q => decide (q.submittedAt ≤ p.submittedAt)))

/-! ## AI response decoding (ai_service.go)

`ReviewCode` / `ReviewGitHubProject` take the first choice of the provider
envelope, strip code fences, and `json.Unmarshal` the content into
`aiReviewResponse`. The content is modelled as an `Option JVal`: `none` for
content that is not syntactically valid JSON, otherwise its JSON value. The
decoder below reproduces encoding/json semantics for these struct types:
absent fields and JSON null leave the zero value, unknown fields are ignored,
a type mismatch anywhere makes Unmarshal return an error, a fractional number
cannot decode into an int field. -/

/-- A JSON value. Numbers are exact rationals (float64 payloads in range). -/
inductive JVal
  | null
  | bool (b : Bool)
  | num (q : Rat)
  | str (s : String)
  | arr (items : List JVal)
  | obj (fields : List (String × JVal))

/-- Object field lookup; like encoding/json, the last occurrence of a key wins. -/
def getField : List (String × JVal) → String → Option JVal
  | [], _ => none
  | (k2, v) :: rest, k =>
    match getField rest k with
    | some w => some w
    | none => if k2 = k then some v else none

/-- service.feedbackJSON (ai_service.go). -/
structure FeedbackJSON where
  ftype : String
  filePath : String
  lineStart : Int
  lineEnd : Int
  codeSnippet : String
  suggestedFix : String
  description : String
  severity : Int
deriving DecidableEq

/-- service.aiReviewResponse (ai_service.go). -/
structure AIReviewResponse where
  overallStatus : String
  confidence : Rat
  feedbacks : List FeedbackJSON
deriving DecidableEq

/-- Unmarshal of one JSON object field into a Go string field. -/
def decodeStringField (fields : List (String × JVal)) (k : String) : Except Unit String :=
  match getField fields k with
  | none => .ok ""
  | some .null => .ok ""
  | some (.str s) => .ok s
  | some _ => .error ()

/-- Unmarshal of one JSON object field into a Go float64 field. -/
def decodeNumberField (fields : List (String × JVal)) (k : String) : Except Unit Rat :=
  match getField fields k with
  | none => .ok 0
  | some .null => .ok 0
  | some (.num q) => .ok q
  | some _ => .error ()

/-- Unmarshal of one JSON object field into a Go int field: a number with a
fractional part is a type error. -/
def decodeIntField (fields : List (String × JVal)) (k : String) : Except Unit Int :=
  match getField fields k with
  | none => .ok 0
  | some .null => .ok 0
  | some (.num q) => if q.den = 1 then .ok q.num else .error ()
  | some _ => .error ()

/-- Unmarshal of one feedbacks array element into feedbackJSON: succeeds exactly
when every field unmarshals. -/
def decodeFeedback (v : JVal) : Except Unit FeedbackJSON :=
  match v with
  | .null => .ok ⟨"", "", 0, 0, "", "", "", 0⟩
  | .obj fields =>
    match decodeStringField fields "type", decodeStringField fields "file_path",
        decodeIntField fields "line_start", decodeIntField fields "line_end",
        decodeStringField fields "code_snippet", decodeStringField fields "suggested_fix",
        decodeStringField fields "description", decodeIntField fields "severity" with
    | .ok t, .ok fp, .ok ls, .ok le, .ok cs, .ok sf, .ok d, .ok sev =>
      .ok ⟨t, fp, ls, le, cs, sf, d, sev⟩
    | _, _, _, _, _, _, _, _ => .error ()
  | _ => .error ()

/-- Unmarshal of a list of feedbacks array elements, failing when any is bad. -/
def decodeFeedbackList : List JVal → Except Unit (List FeedbackJSON)
  | [] => .ok []
  | v :: vs =>
    match decodeFeedback v, decodeFeedbackList vs with
    | .ok f, .ok rest => .ok (f :: rest)
    | _, _ => .error ()

/-- Unmarshal of the feedbacks field into the Go slice field. -/
def decodeFeedbacksField (fields : List (String × JVal)) : Except Unit (List FeedbackJSON) :=
  match getField fields "feedbacks" with
  | none => .ok []
  | some .null => .ok []
  | some (.arr items) => decodeFeedbackList items
  | some _ => .error ()

/-- json.Unmarshal of the trimmed content into aiReviewResponse. -/
def decodeAIReview (v : JVal) : Except Unit AIReviewResponse :=
  match v with
  | .null => .ok ⟨"", 0, []⟩
  | .obj fields =>
    match decodeStringField fields "overall_status", decodeNumberField fields "confidence",
        decodeFeedbacksField fields with
    | .ok st, .ok conf, .ok fbs => .ok ⟨st, conf, fbs⟩
    | _, _, _ => .error ()
  | _ => .error ()

/-- The acceptance kernel of ReviewCode / ReviewGitHubProject on the provider
envelope: error when `choices` is empty ("no response from AI"), error when the
first content does not parse as JSON, otherwise the Unmarshal outcome. -/
def reviewCodeAccept (choices : List (Option JVal)) : Except Unit AIReviewResponse :=
  match choices with
  | [] => .error ()
  | content :: _ =>
    match content with
    | none => .error ()
    | some v => decodeAIReview v

/-- Spec-side shape check for one string field: absent, null or a JSON string. -/
def stringFieldOK (fields : List (String × JVal)) (k : String) : Bool :=
  match getField fields k with
  | none => true
  | some .null => true
  | some (.str _) => true
  | some _ => false

/-- Spec-side shape check for one float64 field: absent, null or a JSON number. -/
def numberFieldOK (fields : List (String × JVal)) (k : String) : Bool :=
  match getField fields k with
  | none => true
  | some .null => true
  | some (.num _) => true
  | some _ => false

/-- Spec-side shape check for one int field: absent, null or an integral number. -/
def intFieldOK (fields : List (String × JVal)) (k : String) : Bool :=
  match getField fields k with
  | none => true
  | some .null => true
  | some (.num q) => decide (q.den = 1)
  | some _ => false

/-- Spec-side shape check for one feedbacks array element. -/
def feedbackShapeOK (v : JVal) : Bool :=
  match v with
  | .null => true
  | .obj fields =>
    stringFieldOK fields "type" && stringFieldOK fields "file_path" &&
    intFieldOK fields "line_start" && intFieldOK fields "line_end" &&
    stringFieldOK fields "code_snippet" && stringFieldOK fields "suggested_fix" &&
    stringFieldOK fields "description" && intFieldOK fields "severity"
  | _ => false

/-- Spec-side shape check for the feedbacks field. -/
def feedbacksFieldOK (fields : List (String × JVal)) : Bool :=
  match getField fields "feedbacks" with
  | none => true
  | some .null => true
  | some (.arr items) => items.all feedbackShapeOK
  | some _ => false

/-- Spec-side shape check for the whole response value: a JSON object (or null)
whose known fields, when present, carry the JSON type of the Go field. No
constraint relates the verdict string, the confidence value or the severities
to any enumeration or range. -/
def structuralOK (v : JVal) : Bool :=
  match v with
  | .null => true
  | .obj fields =>
    stringFieldOK fields "overall_status" && numberFieldOK fields "confidence" &&
    feedbacksFieldOK fields
  | _ => false

/-- Spec-side acceptance of the whole envelope. -/
def acceptSpec (choices : List (Option JVal)) : Bool :=
  match choices with
  | [] => false
  | none :: _ => false
  | some v :: _ => structuralOK v

/-! ## Sample values used by witnesses -/

/-- A task row for witnesses. -/
def sampleTask : Task :=
  { id := 1, courseID := 1, title := "t", description := "d", deadline := 0,
    maxScore := 100, createdAt := 0, updatedAt := none }

/-- An inline-code pending submission for witnesses. -/
def sampleCodeSub : Submission :=
  { id := 7, studentID := 2, taskID := 1, code := some "void main() {}",
    githubURL := none, submittedAt := 5, score := none, status := StatusPending,
    submissionType := SubmissionTypeCode }

/-- A repository-reference pending submission with a well-shaped URL. -/
def sampleGithubSub : Submission :=
  { id := 8, studentID := 2, taskID := 1, code := none,
    githubURL := some "https://github.com/o/r", submittedAt := 6, score := none,
    status := StatusPending, submissionType := SubmissionTypeGithubLink }

/-- A repository-reference pending submission whose URL fails the shape check. -/
def sampleBadURLSub : Submission :=
  { id := 9, studentID := 2, taskID := 1, code := none,
    githubURL := some "https://github.com/o/r/extra", submittedAt := 7, score := none,
    status := StatusPending, submissionType := SubmissionTypeGithubLink }

/-- An existing review row for the idempotency witness. -/
def sampleReview : CodeReview :=
  { id := 3, submissionID := 7, aiModel := "deepseek", overallStatus := "passed",
    aiConfidence := some 1, executionTimeMs := some 10, createdAt := 0 }

/-- A one-item review result for witnesses. -/
def sampleResult : CodeReviewResult :=
  { overallStatus := "failed", aiConfidence := 4/5, executionTimeMs := 12,
    feedbacks := [{ feedbackType := "logic_error", filePath := "", lineStart := 1,
                    lineEnd := 2, codeSnippet := "x", suggestedFix := "y",
                    description := "z", severity := 3 }] }

/-- An environment in which every call succeeds. -/
def sampleEnvOK : Env :=
  { getExistingReview := .ok none
    getTask := .ok (some sampleTask)
    getCriteria := .ok []
    reviewCode := .ok sampleResult
    reviewGitHubProject := .ok sampleResult
    cloneRepository := .ok "/tmp/r"
    getDartFiles := .ok ["lib/main.dart"]
    readFile := fun _ => .ok "void main() {}"
    createCodeReview := .ok 21
    createReviewFeedback := fun _ => true
    updateStatus := true }

/-- sampleEnvOK with an already-existing review. -/
def sampleEnvReviewed : Env :=
  { sampleEnvOK with getExistingReview := .ok (some sampleReview) }

/-- sampleEnvOK with a missing task. -/
def sampleEnvNoTask : Env :=
  { sampleEnvOK with getTask := .ok none }

/-- sampleEnvOK in which every feedback insert fails. -/
def sampleEnvFeedbackFails : Env :=
  { sampleEnvOK with createReviewFeedback := fun _ => false }

/-- sampleEnvOK in which the AI reviewer call fails. -/
def sampleEnvAIFails : Env :=
  { sampleEnvOK with reviewCode := .error (), reviewGitHubProject := .error () }

/-! ## General trace lemmas -/

theorem all_implies {l : List Event} {f g : Event → Bool} (h : l.all f = true)
    (hfg : ∀ e, f e = true → g e = true) : l.all g = true := by
  rw [List.all_eq_true] at h ⊢
  exact fun e he => hfg e (h e he)

theorem noneAfter_of_all_not_p {p q : Event → Bool} {v : List Event}
    (h : v.all (fun e => !p e) = true) : noneAfter p q v = true := by
  induction v with
  | nil => rfl
  | cons e tr ih =>
    rw [List.all_cons, Bool.and_eq_true] at h
    rw [noneAfter, Bool.and_eq_true, Bool.or_eq_true]
    exact ⟨Or.inr h.2, ih h.2⟩

theorem noneAfter_of_all_not_q {p q : Event → Bool} {v : List Event}
    (h : v.all (fun e => !q e) = true) : noneAfter p q v = true := by
  induction v with
  | nil => rfl
  | cons e tr ih =>
    rw [List.all_cons, Bool.and_eq_true] at h
    rw [noneAfter, Bool.and_eq_true, Bool.or_eq_true]
    exact ⟨Or.inl h.1, ih h.2⟩

theorem noneAfter_append {p q : Event → Bool} {u v : List Event}
    (hu : u.all (fun e => !q e) = true) (hv : noneAfter p q v = true) :
    noneAfter p q (u ++ v) = true := by
  induction u with
  | nil => simpa using hv
  | cons e tr ih =>
    rw [List.all_cons, Bool.and_eq_true] at hu
    rw [List.cons_append, noneAfter, Bool.and_eq_true, Bool.or_eq_true]
    exact ⟨Or.inl hu.1, ih hu.2⟩

theorem any_false_of_all_not {p : Event → Bool} {v : List Event}
    (h : v.all (fun e => !p e) = true) : v.any p = false := by
  induction v with
  | nil => rfl
  | cons e tr ih =>
    rw [List.all_cons, Bool.and_eq_true] at h
    rw [List.any_cons, Bool.or_eq_false_iff]
    exact ⟨by simpa using h.1, ih h.2⟩

theorem fbEvents_all (l : List FeedbackItem) (rid : Int) (f : Event → Bool)
    (h : ∀ fb, f (Event.createReviewFeedback fb) = true) :
    (l.map fun fb => Event.createReviewFeedback (mkReviewFeedback rid fb)).all f = true := by
  induction l with
  | nil => rfl
  | cons fb tl ih => simp [ih, h]

theorem readDartFiles_all (env : Env) (rp : String) (l : List String) (f : Event → Bool)
    (h : ∀ s, f (Event.callReadFile s) = true) :
    ((readDartFiles env rp l).2.all f) = true := by
  induction l with
  | nil => rfl
  | cons p ps ih =>
    rw [readDartFiles]
    cases env.readFile (rp ++ "/" ++ p) <;> simp [ih, h]

/-! ## saveReviewResult trace shape -/

theorem save_trace_statusOnly (env : Env) (id : Int) (result : CodeReviewResult) :
    statusWritesOnlyAIReviewed (saveReviewResult env id result).2 = true := by
  unfold saveReviewResult statusWritesOnlyAIReviewed
  cases env.createCodeReview with
  | error e => rfl
  | ok rid =>
    have hfb := fbEvents_all result.feedbacks rid statusWriteOK (fun _ => rfl)
    cases hu : env.updateStatus <;>
      simp [List.all_append, hfb, statusWriteOK, StatusAIReviewed]

theorem save_trace_review_before_feedback (env : Env) (id : Int) (result : CodeReviewResult) :
    noneAfter isCreateReviewEvent isCreateFeedbackEvent (saveReviewResult env id result).2 = true := by
  unfold saveReviewResult
  cases env.createCodeReview with
  | error e => rfl
  | ok rid =>
    have hrest : ((result.feedbacks.map fun fb =>
        Event.createReviewFeedback (mkReviewFeedback rid fb)) ++
        [Event.updateStatus id StatusAIReviewed]).all (fun e => !isCreateReviewEvent e) = true := by
      have hfb := fbEvents_all result.feedbacks rid
        (fun e => !isCreateReviewEvent e) (fun _ => rfl)
      simp [List.all_append, hfb, isCreateReviewEvent]
    cases hu : env.updateStatus <;>
      · show noneAfter _ _ (Event.createCodeReview _ :: _) = true
        simp only [noneAfter, Bool.and_eq_true, Bool.or_eq_true]
        exact ⟨Or.inl rfl, noneAfter_of_all_not_p hrest⟩

theorem save_trace_review_before_status (env : Env) (id : Int) (result : CodeReviewResult) :
    noneAfter isCreateReviewEvent isUpdateStatusEvent (saveReviewResult env id result).2 = true := by
  unfold saveReviewResult
  cases env.createCodeReview with
  | error e => rfl
  | ok rid =>
    have hrest : ((result.feedbacks.map fun fb =>
        Event.createReviewFeedback (mkReviewFeedback rid fb)) ++
        [Event.updateStatus id StatusAIReviewed]).all (fun e => !isCreateReviewEvent e) = true := by
      have hfb := fbEvents_all result.feedbacks rid
        (fun e => !isCreateReviewEvent e) (fun _ => rfl)
      simp [List.all_append, hfb, isCreateReviewEvent]
    cases hu : env.updateStatus <;>
      · show noneAfter _ _ (Event.createCodeReview _ :: _) = true
        simp only [noneAfter, Bool.and_eq_true, Bool.or_eq_true]
        exact ⟨Or.inl rfl, noneAfter_of_all_not_p hrest⟩

theorem save_trace_feedback_before_status (env : Env) (id : Int) (result : CodeReviewResult) :
    noneAfter isCreateFeedbackEvent isUpdateStatusEvent (saveReviewResult env id result).2 = true := by
  unfold saveReviewResult
  cases env.createCodeReview with
  | error e => rfl
  | ok rid =>
    have hsplit : Event.createCodeReview (mkCodeReview id result) ::
        ((result.feedbacks.map fun fb =>
          Event.createReviewFeedback (mkReviewFeedback rid fb)) ++
          [Event.updateStatus id StatusAIReviewed]) =
        (Event.createCodeReview (mkCodeReview id result) ::
          (result.feedbacks.map fun fb =>
            Event.createReviewFeedback (mkReviewFeedback rid fb))) ++
          [Event.updateStatus id StatusAIReviewed] := by
      simp
    have hu2 : (Event.createCodeReview (mkCodeReview id result) ::
        (result.feedbacks.map fun fb =>
          Event.createReviewFeedback (mkReviewFeedback rid fb))).all
          (fun e => !isUpdateStatusEvent e) = true := by
      have hfb := fbEvents_all result.feedbacks rid
        (fun e => !isUpdateStatusEvent e) (fun _ => rfl)
      simp [hfb, isUpdateStatusEvent]
    have hv2 : noneAfter isCreateFeedbackEvent isUpdateStatusEvent
        [Event.updateStatus id StatusAIReviewed] = true := by
      apply noneAfter_of_all_not_p
      rfl
    cases hu : env.updateStatus <;>
      · show noneAfter _ _ (Event.createCodeReview _ :: _) = true
        rw [hsplit]
        exact noneAfter_append hu2 hv2

theorem save_trace_update_needs_review (env : Env) (id : Int) (result : CodeReviewResult)
    (h : (saveReviewResult env id result).2.any isUpdateStatusEvent = true) :
    createReviewSucceeded env = true := by
  unfold createReviewSucceeded
  cases hc : env.createCodeReview with
  | ok rid => rfl
  | error e =>
    unfold saveReviewResult at h
    rw [hc] at h
    simp [isUpdateStatusEvent] at h

/-! ## processSubmission trace decomposition

Every run of processSubmission either stops before persisting anything — with a
trace free of row creations and status writes — or ends in a saveReviewResult
run whose trace is appended to such a prefix. -/

theorem processSubmission_decomp (env : Env) (sub : Submission) :
    ∃ u, u.all noWriterB = true ∧
      ((∃ e, processSubmission env sub = (.error e, u) ∧ e ≠ PErr.updateStatusFailed) ∨
       processSubmission env sub = (.ok (), u) ∨
       (∃ result, processSubmission env sub =
         ((saveReviewResult env sub.id result).1,
          u ++ (saveReviewResult env sub.id result).2))) := by
  cases hger : env.getExistingReview with
  | error e =>
    exact ⟨[.getExistingReview], rfl,
      Or.inl ⟨.checkExistingFailed, by simp [processSubmission, hger], by decide⟩⟩
  | ok o =>
    cases o with
    | some r =>
      exact ⟨[.getExistingReview], rfl, Or.inr (Or.inl (by simp [processSubmission, hger]))⟩
    | none =>
      cases hgt : env.getTask with
      | error e =>
        exact ⟨[.getExistingReview, .getTask], rfl,
          Or.inl ⟨.getTaskFailed, by simp [processSubmission, hger, hgt], by decide⟩⟩
      | ok ot =>
        cases ot with
        | none =>
          exact ⟨[.getExistingReview, .getTask], rfl,
            Or.inl ⟨.taskNotFound, by simp [processSubmission, hger, hgt], by decide⟩⟩
        | some task =>
          cases hgc : env.getCriteria with
          | error e =>
            exact ⟨[.getExistingReview, .getTask, .getCriteria], rfl,
              Or.inl ⟨.getCriteriaFailed, by simp [processSubmission, hger, hgt, hgc],
                by decide⟩⟩
          | ok criteria =>
            by_cases hcode : sub.submissionType = SubmissionTypeCode
            · cases hsc : sub.code with
              | none =>
                exact ⟨[.getExistingReview, .getTask, .getCriteria], rfl,
                  Or.inl ⟨.noCode, by simp [processSubmission, processCodeSubmission,
                    hger, hgt, hgc, hcode, hsc], by decide⟩⟩
              | some c =>
                by_cases hc : c = ""
                · exact ⟨[.getExistingReview, .getTask, .getCriteria], rfl,
                    Or.inl ⟨.noCode, by simp [processSubmission, processCodeSubmission,
                      hger, hgt, hgc, hcode, hsc, hc], by decide⟩⟩
                · cases hrc : env.reviewCode with
                  | error e =>
                    exact ⟨[.getExistingReview, .getTask, .getCriteria, .callReviewCode],
                      rfl, Or.inl ⟨.aiReviewFailed, by simp [processSubmission,
                        processCodeSubmission, hger, hgt, hgc, hcode, hsc, hc, hrc],
                        by decide⟩⟩
                  | ok result =>
                    exact ⟨[.getExistingReview, .getTask, .getCriteria, .callReviewCode],
                      rfl, Or.inr (Or.inr ⟨result, by simp [processSubmission,
                        processCodeSubmission, hger, hgt, hgc, hcode, hsc, hc, hrc]⟩)⟩
            · by_cases hgh : sub.submissionType = SubmissionTypeGithubLink
              · cases hsu : sub.githubURL with
                | none =>
                  exact ⟨[.getExistingReview, .getTask, .getCriteria], rfl,
                    Or.inl ⟨.noGithubURL, by simp [processSubmission,
                      processGitHubSubmission, hger, hgt, hgc, hcode, hgh, SubmissionTypeCode, SubmissionTypeGithubLink, hsu],
                      by decide⟩⟩
                | some url =>
                  by_cases hu : url = ""
                  · exact ⟨[.getExistingReview, .getTask, .getCriteria], rfl,
                      Or.inl ⟨.noGithubURL, by simp [processSubmission,
                        processGitHubSubmission, hger, hgt, hgc, hcode, hgh, SubmissionTypeCode, SubmissionTypeGithubLink, hsu, hu],
                        by decide⟩⟩
                  · cases hpat : githubURLPattern url with
                    | false =>
                      exact ⟨[.getExistingReview, .getTask, .getCriteria], rfl,
                        Or.inl ⟨.invalidGithubURL, by simp [processSubmission,
                          processGitHubSubmission, hger, hgt, hgc, hcode, hgh, SubmissionTypeCode, SubmissionTypeGithubLink, hsu, hu,
                          hpat], by decide⟩⟩
                    | true =>
                      cases hcl : env.cloneRepository with
                      | error e =>
                        exact ⟨[.getExistingReview, .getTask, .getCriteria,
                          .callCloneRepository url], rfl,
                          Or.inl ⟨.cloneFailed, by simp [processSubmission,
                            processGitHubSubmission, hger, hgt, hgc, hcode, hgh, SubmissionTypeCode, SubmissionTypeGithubLink, hsu,
                            hu, hpat, hcl], by decide⟩⟩
                      | ok rp =>
                        cases hdf : env.getDartFiles with
                        | error e =>
                          exact ⟨[.getExistingReview, .getTask, .getCriteria,
                            .callCloneRepository url, .callGetDartFiles rp,
                            .callCleanup rp], rfl,
                            Or.inl ⟨.getDartFilesFailed, by simp [processSubmission,
                              processGitHubSubmission, hger, hgt, hgc, hcode, hgh, SubmissionTypeCode, SubmissionTypeGithubLink, hsu,
                              hu, hpat, hcl, hdf], by decide⟩⟩
                        | ok dfs =>
                          have hr := readDartFiles_all env rp dfs noWriterB (fun _ => rfl)
                          by_cases hdfe : dfs = []
                          · exact ⟨[.getExistingReview, .getTask, .getCriteria,
                              .callCloneRepository url, .callGetDartFiles rp,
                              .callCleanup rp], rfl,
                              Or.inl ⟨.noDartFiles, by simp [processSubmission,
                                processGitHubSubmission, hger, hgt, hgc, hcode, hgh, SubmissionTypeCode, SubmissionTypeGithubLink,
                                hsu, hu, hpat, hcl, hdf, hdfe], by decide⟩⟩
                          · by_cases hre : (readDartFiles env rp dfs).1 = []
                            · refine ⟨[.getExistingReview, .getTask, .getCriteria,
                                .callCloneRepository url, .callGetDartFiles rp] ++
                                (readDartFiles env rp dfs).2 ++ [.callCleanup rp], ?_,
                                Or.inl ⟨.readAllFilesFailed, ?_, by decide⟩⟩
                              · simp [List.all_append, hr, noWriterB, isCreateReviewEvent,
                                  isCreateFeedbackEvent, isUpdateStatusEvent]
                              · simp [processSubmission, processGitHubSubmission, hger,
                                  hgt, hgc, hcode, hgh, SubmissionTypeCode,
                                  SubmissionTypeGithubLink, hsu, hu, hpat, hcl, hdf,
                                  hdfe, hre]
                            · cases hai : env.reviewGitHubProject with
                              | error e =>
                                refine ⟨[.getExistingReview, .getTask, .getCriteria,
                                  .callCloneRepository url, .callGetDartFiles rp] ++
                                  (readDartFiles env rp dfs).2 ++
                                  [.callReviewGitHubProject, .callCleanup rp], ?_,
                                  Or.inl ⟨.aiReviewFailed, ?_, by decide⟩⟩
                                · simp [List.all_append, hr, noWriterB, isCreateReviewEvent,
                                  isCreateFeedbackEvent, isUpdateStatusEvent]
                                · simp [processSubmission, processGitHubSubmission,
                                    hger, hgt, hgc, hcode, hgh, SubmissionTypeCode,
                                    SubmissionTypeGithubLink, hsu, hu, hpat, hcl,
                                    hdf, hdfe, hre, hai]
                              | ok result =>
                                refine ⟨[.getExistingReview, .getTask, .getCriteria,
                                  .callCloneRepository url, .callGetDartFiles rp] ++
                                  (readDartFiles env rp dfs).2 ++
                                  [.callReviewGitHubProject, .callCleanup rp], ?_,
                                  Or.inr (Or.inr ⟨result, ?_⟩)⟩
                                · simp [List.all_append, hr, noWriterB, isCreateReviewEvent,
                                  isCreateFeedbackEvent, isUpdateStatusEvent]
                                · simp [processSubmission, processGitHubSubmission,
                                    hger, hgt, hgc, hcode, hgh, SubmissionTypeCode,
                                    SubmissionTypeGithubLink, hsu, hu, hpat, hcl,
                                    hdf, hdfe, hre, hai]
              · exact ⟨[.getExistingReview, .getTask, .getCriteria], rfl,
                  Or.inl ⟨.unknownSubmissionType, by simp [processSubmission, hger,
                    hgt, hgc, hcode, hgh], by decide⟩⟩

theorem noWriter_not_review {e : Event} (h : noWriterB e = true) :
    (!isCreateReviewEvent e) = true := by
  rw [noWriterB, Bool.and_eq_true, Bool.and_eq_true] at h
  exact h.1.1

theorem noWriter_not_feedback {e : Event} (h : noWriterB e = true) :
    (!isCreateFeedbackEvent e) = true := by
  rw [noWriterB, Bool.and_eq_true, Bool.and_eq_true] at h
  exact h.1.2

theorem noWriter_not_update {e : Event} (h : noWriterB e = true) :
    (!isUpdateStatusEvent e) = true := by
  rw [noWriterB, Bool.and_eq_true, Bool.and_eq_true] at h
  exact h.2

theorem noWriter_statusWriteOK {e : Event} (h : noWriterB e = true) :
    statusWriteOK e = true := by
  cases e <;> simp_all [noWriterB, isUpdateStatusEvent, statusWriteOK]

theorem applyEvents_of_all_not_update (env : Env) (s : String) (tr : List Event)
    (h : tr.all (fun e => !isUpdateStatusEvent e) = true) : applyEvents env s tr = s := by
  induction tr generalizing s with
  | nil => rfl
  | cons e t ih =>
    rw [List.all_cons, Bool.and_eq_true] at h
    cases e with
    | updateStatus id st => simp [isUpdateStatusEvent] at h
    | getExistingReview => exact ih s h.2
    | getTask => exact ih s h.2
    | getCriteria => exact ih s h.2
    | callReviewCode => exact ih s h.2
    | callReviewGitHubProject => exact ih s h.2
    | callCloneRepository url => exact ih s h.2
    | callGetDartFiles rp => exact ih s h.2
    | callReadFile p => exact ih s h.2
    | callCleanup rp => exact ih s h.2
    | createCodeReview r => exact ih s h.2
    | createReviewFeedback f => exact ih s h.2

theorem applyEvents_of_update_fails (env : Env) (s : String) (tr : List Event)
    (h : env.updateStatus = false) : applyEvents env s tr = s := by
  induction tr generalizing s with
  | nil => rfl
  | cons e t ih =>
    cases e with
    | updateStatus id st =>
      show applyEvents env (if env.updateStatus then st else s) t = s
      rw [h, if_neg (by simp)]
      exact ih s
    | getExistingReview => exact ih s
    | getTask => exact ih s
    | getCriteria => exact ih s
    | callReviewCode => exact ih s
    | callReviewGitHubProject => exact ih s
    | callCloneRepository url => exact ih s
    | callGetDartFiles rp => exact ih s
    | callReadFile p => exact ih s
    | callCleanup rp => exact ih s
    | createCodeReview r => exact ih s
    | createReviewFeedback f => exact ih s

/-! ## Claims C1, C2, C3 -/

/-- C1: in every run of the review workflow, each status write carries exactly
ai_reviewed (never another value); every Review creation strictly precedes
every feedback write; every Review creation and every feedback write strictly
precede every status write; and a status write is issued only when the Review
record was stored successfully. -/
theorem c1_status_transition_order (env : Env) (sub : Submission) :
    statusWritesOnlyAIReviewed (processSubmission env sub).2 = true ∧
    noneAfter isCreateReviewEvent isCreateFeedbackEvent (processSubmission env sub).2 = true ∧
    noneAfter isCreateReviewEvent isUpdateStatusEvent (processSubmission env sub).2 = true ∧
    noneAfter isCreateFeedbackEvent isUpdateStatusEvent (processSubmission env sub).2 = true ∧
    (!((processSubmission env sub).2.any isUpdateStatusEvent) ||
      createReviewSucceeded env) = true := by
  obtain ⟨u, hu, hcase⟩ := processSubmission_decomp env sub
  have hOnU : ∀ u2 : List Event, u2.all noWriterB = true →
      statusWritesOnlyAIReviewed u2 = true ∧
      noneAfter isCreateReviewEvent isCreateFeedbackEvent u2 = true ∧
      noneAfter isCreateReviewEvent isUpdateStatusEvent u2 = true ∧
      noneAfter isCreateFeedbackEvent isUpdateStatusEvent u2 = true ∧
      (!(u2.any isUpdateStatusEvent) || createReviewSucceeded env) = true := by
    intro u2 hu2
    refine ⟨all_implies hu2 (fun e he => noWriter_statusWriteOK he),
      noneAfter_of_all_not_q (all_implies hu2 (fun e he => noWriter_not_feedback he)),
      noneAfter_of_all_not_q (all_implies hu2 (fun e he => noWriter_not_update he)),
      noneAfter_of_all_not_q (all_implies hu2 (fun e he => noWriter_not_update he)), ?_⟩
    rw [any_false_of_all_not (all_implies hu2 (fun e he => noWriter_not_update he))]
    rfl
  rcases hcase with ⟨e, heq, _⟩ | heq | ⟨result, heq⟩
  · rw [heq]
    exact hOnU u hu
  · rw [heq]
    exact hOnU u hu
  · rw [heq]
    refine ⟨?_, ?_, ?_, ?_, ?_⟩
    · have h1 : u.all statusWriteOK = true := (hOnU u hu).1
      have h2 : (saveReviewResult env sub.id result).2.all statusWriteOK = true :=
        save_trace_statusOnly env sub.id result
      rw [statusWritesOnlyAIReviewed, List.all_append, h1, h2]
      rfl
    · exact noneAfter_append (all_implies hu (fun e he => noWriter_not_feedback he))
        (save_trace_review_before_feedback env sub.id result)
    · exact noneAfter_append (all_implies hu (fun e he => noWriter_not_update he))
        (save_trace_review_before_status env sub.id result)
    · exact noneAfter_append (all_implies hu (fun e he => noWriter_not_update he))
        (save_trace_feedback_before_status env sub.id result)
    · rw [List.any_append,
        any_false_of_all_not (all_implies hu (fun e he => noWriter_not_update he))]
      cases hsa : (saveReviewResult env sub.id result).2.any isUpdateStatusEvent with
      | false => rfl
      | true =>
        rw [save_trace_update_needs_review env sub.id result hsa]
        simp

/-- C2: a submission that already has a Review row makes processSubmission
return success after the lookup alone: the trace is exactly the idempotency
check, so neither collaborator is invoked and no row or status is written. -/
theorem c2_existing_review_short_circuit (env : Env) (sub : Submission) (r : CodeReview)
    (h : env.getExistingReview = .ok (some r)) :
    processSubmission env sub = (.ok (), [Event.getExistingReview]) := by
  simp [processSubmission, h]

theorem c2_existing_review_short_circuit_witness :
    processSubmission sampleEnvReviewed sampleCodeSub = (.ok (), [Event.getExistingReview]) :=
  c2_existing_review_short_circuit sampleEnvReviewed sampleCodeSub sampleReview rfl

/-- C3: whenever processSubmission returns an error other than a failure of the
final status UPDATE itself, its trace contains no status write at all; and in
every error outcome the submission status replayed from the trace is unchanged,
so a pending submission stays pending. -/
theorem c3_error_leaves_status_untouched (env : Env) (sub : Submission) (e : PErr)
    (h : (processSubmission env sub).1 = .error e) :
    (e ≠ PErr.updateStatusFailed →
      (processSubmission env sub).2.all (fun ev => !isUpdateStatusEvent ev) = true) ∧
    applyEvents env sub.status (processSubmission env sub).2 = sub.status := by
  obtain ⟨u, hu, hcase⟩ := processSubmission_decomp env sub
  have huNoUpd : u.all (fun ev => !isUpdateStatusEvent ev) = true :=
    all_implies hu (fun ev hev => noWriter_not_update hev)
  rcases hcase with ⟨e2, heq, _⟩ | heq | ⟨result, heq⟩
  · rw [heq]
    exact ⟨fun _ => huNoUpd, applyEvents_of_all_not_update env sub.status u huNoUpd⟩
  · rw [heq] at h
    simp at h
  · rw [heq] at h ⊢
    cases hc : env.createCodeReview with
    | error e2 =>
      have hs : saveReviewResult env sub.id result =
          (.error .createReviewFailed,
            [Event.createCodeReview (mkCodeReview sub.id result)]) := by
        simp [saveReviewResult, hc]
      rw [hs]
      constructor
      · intro _
        rw [List.all_append, huNoUpd]
        rfl
      · apply applyEvents_of_all_not_update
        rw [List.all_append, huNoUpd]
        rfl
    | ok rid =>
      cases hus : env.updateStatus with
      | true =>
        have : (saveReviewResult env sub.id result).1 = .ok () := by
          simp [saveReviewResult, hc, hus]
        rw [this] at h
        simp at h
      | false =>
        have he : e = PErr.updateStatusFailed := by
          have : (saveReviewResult env sub.id result).1 = .error .updateStatusFailed := by
            simp [saveReviewResult, hc, hus]
          rw [this] at h
          exact (Except.error.injEq _ _ ▸ h.symm : _)
        constructor
        · intro hne
          exact absurd he hne
        · exact applyEvents_of_update_fails env sub.status _ hus

theorem c3_error_leaves_status_untouched_witness :
    (processSubmission sampleEnvNoTask sampleCodeSub).2.all
      (fun ev => !isUpdateStatusEvent ev) = true ∧
    applyEvents sampleEnvNoTask sampleCodeSub.status
      (processSubmission sampleEnvNoTask sampleCodeSub).2 = sampleCodeSub.status :=
  ⟨(c3_error_leaves_status_untouched sampleEnvNoTask sampleCodeSub .taskNotFound rfl).1
      (by decide),
    (c3_error_leaves_status_untouched sampleEnvNoTask sampleCodeSub .taskNotFound rfl).2⟩

/-! ## Claims C4, C6, C8 -/

/-- C4: when the Review row is created and the final status UPDATE succeeds,
saveReviewResult issues one feedback insert per item, in order, advances the
status to ai_reviewed and returns success — entirely independently of which
individual feedback inserts fail (here at least one fails): a failed insert is
skipped, rolls nothing back and aborts nothing. -/
theorem c4_feedback_failures_tolerated (env : Env) (id : Int) (result : CodeReviewResult)
    (rid : Int) (hcr : env.createCodeReview = .ok rid) (hus : env.updateStatus = true)
    (_hfail : ∃ fb ∈ result.feedbacks,
      env.createReviewFeedback (mkReviewFeedback rid fb) = false) :
    saveReviewResult env id result =
      (.ok (), Event.createCodeReview (mkCodeReview id result) ::
        ((result.feedbacks.map fun fb =>
          Event.createReviewFeedback (mkReviewFeedback rid fb)) ++
          [Event.updateStatus id StatusAIReviewed])) := by
  simp [saveReviewResult, hcr, hus]

theorem c4_feedback_failures_tolerated_witness :
    saveReviewResult sampleEnvFeedbackFails 7 sampleResult =
      (.ok (), Event.createCodeReview (mkCodeReview 7 sampleResult) ::
        ((sampleResult.feedbacks.map fun fb =>
          Event.createReviewFeedback (mkReviewFeedback 21 fb)) ++
          [Event.updateStatus 7 StatusAIReviewed])) :=
  c4_feedback_failures_tolerated sampleEnvFeedbackFails 7 sampleResult 21 rfl rfl
    ⟨{ feedbackType := "logic_error", filePath := "", lineStart := 1, lineEnd := 2,
       codeSnippet := "x", suggestedFix := "y", description := "z", severity := 3 },
      by decide, rfl⟩

/-- C6: a repository-reference submission whose reference is absent, empty or
outside the accepted URL shape makes the workflow fail before any network call:
processSubmission returns an error and its trace contains no CloneRepository
call, no AI reviewer call and no status write (so the submission stays
pending). -/
theorem c6_bad_url_rejected_before_network (env : Env) (sub : Submission)
    (hno : env.getExistingReview = .ok none)
    (hty : sub.submissionType = SubmissionTypeGithubLink)
    (hurl : urlRejected sub.githubURL = true) :
    isOkE (processSubmission env sub).1 = false ∧
    (processSubmission env sub).2.all
      (fun e => !isCloneEvent e && !isAICallEvent e && !isUpdateStatusEvent e) = true := by
  have hty2 : ¬sub.submissionType = SubmissionTypeCode := by
    rw [hty]
    decide
  cases hgt : env.getTask with
  | error e =>
    constructor
    · simp [processSubmission, hno, hgt, isOkE]
    · simp [processSubmission, hno, hgt, isCloneEvent, isAICallEvent, isUpdateStatusEvent]
  | ok ot =>
    cases ot with
    | none =>
      constructor
      · simp [processSubmission, hno, hgt, isOkE]
      · simp [processSubmission, hno, hgt, isCloneEvent, isAICallEvent,
          isUpdateStatusEvent]
    | some task =>
      cases hgc : env.getCriteria with
      | error e =>
        constructor
        · simp [processSubmission, hno, hgt, hgc, isOkE]
        · simp [processSubmission, hno, hgt, hgc, isCloneEvent, isAICallEvent,
            isUpdateStatusEvent]
      | ok criteria =>
        have hgithub : processGitHubSubmission env sub task criteria =
            (if sub.githubURL = none ∨ sub.githubURL = some "" then
              (.error .noGithubURL, []) else (.error .invalidGithubURL, [])) := by
          cases hsu : sub.githubURL with
          | none => simp [processGitHubSubmission, hsu]
          | some url =>
            rw [hsu, urlRejected] at hurl
            by_cases hu : url = ""
            · simp [processGitHubSubmission, hsu, hu]
            · have hpat : githubURLPattern url = false := by
                rcases Bool.or_eq_true_iff.mp hurl with h1 | h1
                · exact absurd (by simpa using h1) hu
                · simpa using h1
              simp [processGitHubSubmission, hsu, hu, hpat]
        by_cases hcase : sub.githubURL = none ∨ sub.githubURL = some ""
        · rw [if_pos hcase] at hgithub
          constructor
          · simp [processSubmission, hno, hgt, hgc, hty2, hty, SubmissionTypeCode,
              SubmissionTypeGithubLink, hgithub, isOkE]
          · simp [processSubmission, hno, hgt, hgc, hty2, hty, SubmissionTypeCode,
              SubmissionTypeGithubLink, hgithub, isCloneEvent, isAICallEvent,
              isUpdateStatusEvent]
        · rw [if_neg hcase] at hgithub
          constructor
          · simp [processSubmission, hno, hgt, hgc, hty2, hty, SubmissionTypeCode,
              SubmissionTypeGithubLink, hgithub, isOkE]
          · simp [processSubmission, hno, hgt, hgc, hty2, hty, SubmissionTypeCode,
              SubmissionTypeGithubLink, hgithub, isCloneEvent, isAICallEvent,
              isUpdateStatusEvent]

theorem c6_bad_url_rejected_before_network_witness :
    isOkE (processSubmission sampleEnvOK sampleBadURLSub).1 = false ∧
    (processSubmission sampleEnvOK sampleBadURLSub).2.all
      (fun e => !isCloneEvent e && !isAICallEvent e && !isUpdateStatusEvent e) = true :=
  c6_bad_url_rejected_before_network sampleEnvOK sampleBadURLSub rfl rfl (by decide)

/-- C8: on every run of processGitHubSubmission in which CloneRepository
succeeds with some handle, the trace contains exactly one Cleanup call, for
that handle, regardless of how the rest of the run goes (listing failure, no
Dart files, unreadable files, AI failure, or success). -/
theorem c8_cleanup_exactly_once (env : Env) (sub : Submission) (task : Task)
    (criteria : List TaskCriteria) (url repoPath : String)
    (hurl : sub.githubURL = some url) (hne : url ≠ "")
    (hpat : githubURLPattern url = true)
    (hclone : env.cloneRepository = .ok repoPath) :
    (processGitHubSubmission env sub task criteria).2.filter isCleanupEvent =
      [Event.callCleanup repoPath] := by
  cases hdf : env.getDartFiles with
  | error e =>
    simp [processGitHubSubmission, hurl, hne, hpat, hclone, hdf, isCleanupEvent]
  | ok dfs =>
    have hrc : (readDartFiles env repoPath dfs).2.filter isCleanupEvent = [] := by
      rw [List.filter_eq_nil_iff]
      intro e he
      have := List.all_eq_true.mp (readDartFiles_all env repoPath dfs
        (fun e2 => !isCleanupEvent e2) (fun _ => rfl)) e he
      simpa using this
    by_cases hdfe : dfs = []
    · simp [processGitHubSubmission, hurl, hne, hpat, hclone, hdf, hdfe, isCleanupEvent]
    · by_cases hre : (readDartFiles env repoPath dfs).1 = []
      · simp [processGitHubSubmission, hurl, hne, hpat, hclone, hdf, hdfe, hre,
          List.filter_append, hrc, isCleanupEvent]
      · cases hai : env.reviewGitHubProject with
        | error e =>
          simp [processGitHubSubmission, hurl, hne, hpat, hclone, hdf, hdfe, hre, hai,
            List.filter_append, hrc, isCleanupEvent]
        | ok result =>
          simp [processGitHubSubmission, hurl, hne, hpat, hclone, hdf, hdfe, hre, hai,
            List.filter_append, hrc, isCleanupEvent]

theorem c8_cleanup_exactly_once_witness :
    (processGitHubSubmission sampleEnvOK sampleGithubSub sampleTask []).2.filter
      isCleanupEvent = [Event.callCleanup "/tmp/r"] :=
  c8_cleanup_exactly_once sampleEnvOK sampleGithubSub sampleTask []
    "https://github.com/o/r" "/tmp/r" rfl (by decide) (by decide) rfl

/-! ## Claim C10: intake pattern vs workflow pattern -/

theorem dropLeading_eq : ∀ (p l t : List Char), dropLeading p l = some t → l = p ++ t
  | [], l, t, h => by
    rw [dropLeading] at h
    cases h
    rfl
  | c :: ps, [], t, h => by
    rw [dropLeading] at h
    cases h
  | c :: ps, c2 :: cs, t, h => by
    rw [dropLeading] at h
    by_cases hc : c2 = c
    · rw [if_pos hc] at h
      have := dropLeading_eq ps cs t h
      rw [hc, this]
      rfl
    · rw [if_neg hc] at h
      cases h

theorem breakAtSlash_eq : ∀ (t o r : List Char), breakAtSlash t = some (o, r) →
    t = o ++ '/' :: r
  | [], o, r, h => by
    rw [breakAtSlash] at h
    cases h
  | c :: cs, o, r, h => by
    rw [breakAtSlash] at h
    by_cases hc : c = '/'
    · rw [if_pos hc] at h
      injection h with h3
      rw [Prod.mk.injEq] at h3
      rw [← h3.1, ← h3.2, hc]
      rfl
    · rw [if_neg hc] at h
      cases hb : breakAtSlash cs with
      | none => rw [hb] at h; cases h
      | some pr =>
        obtain ⟨a, b⟩ := pr
        rw [hb] at h
        injection h with h3
        rw [Prod.mk.injEq] at h3
        rw [← h3.1, ← h3.2]
        rw [breakAtSlash_eq cs a b hb]
        rfl

theorem repoChar_of_ownerChar (c : Char) (h : isOwnerChar c = true) :
    isRepoChar c = true := by
  simp [isRepoChar, h]

/-- C10 counterexample: the intake validation accepts a trailing-slash GitHub
URL that the review workflow's shape check rejects, so the claimed inclusion
fails at this input. -/
theorem c10_counterexample :
    intakeGithubURLPattern "https://github.com/alice/app/" = true ∧
    githubURLPattern "https://github.com/alice/app/" = false := by
  constructor
  · decide
  · decide

/-- C10 (amended): every github_url accepted by the intake validation that does
not end with '/' also matches the review workflow's shape check. The intake
pattern additionally admits URLs with one trailing slash and exactly those are
rejected later by the workflow check. -/
theorem c10_intake_accepts_implies_workflow (s : String)
    (h1 : intakeGithubURLPattern s = true) (h2 : s.data.getLast? ≠ some '/') :
    githubURLPattern s = true := by
  simp only [intakeGithubURLPattern] at h1
  cases hdrop : dropLeading "https://github.com/".data s.data with
  | none => simp [hdrop] at h1
  | some t =>
    simp only [hdrop] at h1
    cases hbreak : breakAtSlash t with
    | none => simp [hbreak] at h1
    | some pr =>
      obtain ⟨o, rest⟩ := pr
      simp only [hbreak] at h1
      rw [Bool.and_eq_true, Bool.and_eq_true] at h1
      obtain ⟨⟨ho1, ho2⟩, htail⟩ := h1
      have ht : t = o ++ '/' :: rest := breakAtSlash_eq t o rest hbreak
      have hs : s.data = "https://github.com/".data ++ t := dropLeading_eq _ _ _ hdrop
      rw [intakeRepoTail] at htail
      cases hlast : rest.getLast? with
      | none => simp [hlast] at htail
      | some c =>
        simp only [hlast] at htail
        have hrestne : rest ≠ [] := by
          intro hr
          rw [hr] at hlast
          cases hlast
        by_cases hc : c = '/'
        · exfalso
          apply h2
          have hshape : s.data =
              (("https://github.com/".data ++ o) ++ ['/']) ++ rest := by
            rw [hs, ht]
            simp
          rw [hshape, List.getLast?_append_of_ne_nil _ hrestne, hlast, hc]
        · rw [if_neg hc] at htail
          have hrepo : rest.all isRepoChar = true := by
            rw [List.all_eq_true] at htail ⊢
            exact fun x hx => repoChar_of_ownerChar x (htail x hx)
          have hempty : rest.isEmpty = false := by
            cases rest with
            | nil => exact absurd rfl hrestne
            | cons a b => rfl
          simp only [githubURLPattern, hdrop, githubTailMatch, hbreak]
          rw [ho1, ho2, hempty, hrepo]
          rfl

theorem c10_intake_accepts_implies_workflow_witness :
    intakeGithubURLPattern "https://github.com/o/r" = true ∧
    "https://github.com/o/r".data.getLast? ≠ some '/' ∧
    githubURLPattern "https://github.com/o/r" = true :=
  ⟨by decide, by decide,
    c10_intake_accepts_implies_workflow "https://github.com/o/r" (by decide) (by decide)⟩

/-! ## Claim C5: batch fetch contract -/

theorem sortedBy_of_pairwise : ∀ {l : List Submission},
    List.Pairwise oldestFirst l → sortedBySubmittedAt l = true := by
  intro l h
  induction l with
  | nil => rfl
  | cons a t ih =>
    cases t with
    | nil => rfl
    | cons b t2 =>
      rw [List.pairwise_cons] at h
      rw [sortedBySubmittedAt, Bool.and_eq_true]
      exact ⟨decide_eq_true (h.1 b (List.mem_cons_self b t2)), ih h.2⟩

/-- C5: one batch fetch returns only pending rows, at most 10 of them, ordered
oldest-submitted-first, and omits a pending row only when the batch already
holds 10 rows each submitted no later than it — so the oldest 10 pending are
taken and the rest wait for a later cycle. -/
theorem c5_pending_batch_contract (db : List Submission) :
    pendingBatchOK db (getPendingSubmissions db) = true := by
  have hperm := List.perm_insertionSort oldestFirst
    (db.filter fun s => s.status == StatusPending)
  have hsorted := List.sorted_insertionSort oldestFirst
    (db.filter fun s => s.status == StatusPending)
  rw [pendingBatchOK, Bool.and_eq_true, Bool.and_eq_true, Bool.and_eq_true]
  refine ⟨⟨⟨?_, ?_⟩, ?_⟩, ?_⟩
  · rw [List.all_eq_true]
    intro x hx
    have hx2 : x ∈ List.insertionSort oldestFirst
        (db.filter fun s => s.status == StatusPending) :=
      List.mem_of_mem_take hx
    exact (List.mem_filter.mp (hperm.mem_iff.mp hx2)).2
  · rw [decide_eq_true_iff]
    exact List.length_take_le 10 _
  · exact sortedBy_of_pairwise (List.Pairwise.sublist (List.take_sublist 10 _) hsorted)
  · rw [List.all_eq_true]
    intro p hp
    cases hpend : p.status == StatusPending with
    | false => rfl
    | true =>
      have hpl : p ∈ db.filter fun s => s.status == StatusPending :=
        List.mem_filter.mpr ⟨hp, hpend⟩
      have hps : p ∈ List.insertionSort oldestFirst
          (db.filter fun s => s.status == StatusPending) := hperm.mem_iff.mpr hpl
      by_cases hin : p ∈ getPendingSubmissions db
      · rw [Bool.or_eq_true, Bool.or_eq_true]
        exact Or.inl (Or.inr (decide_eq_true hin))
      · have hlen : 10 < (List.insertionSort oldestFirst
            (db.filter fun s => s.status == StatusPending)).length := by
          by_contra hle
          rw [not_lt] at hle
          apply hin
          rw [getPendingSubmissions, List.take_of_length_le hle]
          exact hps
        have h10 : (getPendingSubmissions db).length = 10 := by
          rw [getPendingSubmissions, List.length_take]
          exact min_eq_left (le_of_lt hlen)
        have hpd : p ∈ (List.insertionSort oldestFirst
            (db.filter fun s => s.status == StatusPending)).drop 10 := by
          have hmem : p ∈ (List.insertionSort oldestFirst
              (db.filter fun s => s.status == StatusPending)).take 10 ++
              (List.insertionSort oldestFirst
              (db.filter fun s => s.status == StatusPending)).drop 10 := by
            rw [List.take_append_drop]
            exact hps
          rcases List.mem_append.mp hmem with h | h
          · exact absurd h hin
          · exact h
        have hall : ∀ q ∈ getPendingSubmissions db, q.submittedAt ≤ p.submittedAt := by
          intro q hq
          have hp2 : List.Pairwise oldestFirst
              ((List.insertionSort oldestFirst
                (db.filter fun s => s.status == StatusPending)).take 10 ++
               (List.insertionSort oldestFirst
                (db.filter fun s => s.status == StatusPending)).drop 10) := by
            rw [List.take_append_drop]
            exact hsorted
          exact (List.pairwise_append.mp hp2).2.2 q hq p hpd
        have hC : (decide ((getPendingSubmissions db).length = 10) &&
            (getPendingSubmissions db).all fun q =>
              decide (q.submittedAt ≤ p.submittedAt)) = true := by
          rw [Bool.and_eq_true]
          refine ⟨decide_eq_true h10, ?_⟩
          rw [List.all_eq_true]
          exact fun q hq => decide_eq_true (hall q hq)
        rw [hC, Bool.or_true]

/-! ## Claim C7: AI response validation -/

theorem isOk_decodeStringField (fields : List (String × JVal)) (k : String) :
    isOkE (decodeStringField fields k) = stringFieldOK fields k := by
  unfold decodeStringField stringFieldOK
  cases getField fields k with
  | none => rfl
  | some v => cases v <;> rfl

theorem isOk_decodeNumberField (fields : List (String × JVal)) (k : String) :
    isOkE (decodeNumberField fields k) = numberFieldOK fields k := by
  unfold decodeNumberField numberFieldOK
  cases getField fields k with
  | none => rfl
  | some v =>
    cases v <;> rfl

theorem isOk_decodeIntField (fields : List (String × JVal)) (k : String) :
    isOkE (decodeIntField fields k) = intFieldOK fields k := by
  unfold decodeIntField intFieldOK
  cases getField fields k with
  | none => rfl
  | some v =>
    cases v with
    | num q =>
      by_cases hq : q.den = 1
      · simp [hq, isOkE]
      · simp [hq, isOkE]
    | null => rfl
    | bool b => rfl
    | str s2 => rfl
    | arr items => rfl
    | obj fs => rfl

theorem isOk_decodeFeedback (v : JVal) : isOkE (decodeFeedback v) = feedbackShapeOK v := by
  cases v with
  | null => rfl
  | bool b => rfl
  | num q => rfl
  | str s2 => rfl
  | arr items => rfl
  | obj fields =>
    simp only [decodeFeedback, feedbackShapeOK]
    rw [← isOk_decodeStringField fields "type",
      ← isOk_decodeStringField fields "file_path",
      ← isOk_decodeIntField fields "line_start",
      ← isOk_decodeIntField fields "line_end",
      ← isOk_decodeStringField fields "code_snippet",
      ← isOk_decodeStringField fields "suggested_fix",
      ← isOk_decodeStringField fields "description",
      ← isOk_decodeIntField fields "severity"]
    cases decodeStringField fields "type" <;>
      cases decodeStringField fields "file_path" <;>
      cases decodeIntField fields "line_start" <;>
      cases decodeIntField fields "line_end" <;>
      cases decodeStringField fields "code_snippet" <;>
      cases decodeStringField fields "suggested_fix" <;>
      cases decodeStringField fields "description" <;>
      cases decodeIntField fields "severity" <;>
      rfl

theorem isOk_decodeFeedbackList : ∀ l : List JVal,
    isOkE (decodeFeedbackList l) = l.all feedbackShapeOK
  | [] => rfl
  | v :: vs => by
    cases hfv : decodeFeedback v with
    | error e =>
      have hv : feedbackShapeOK v = false := by
        rw [← isOk_decodeFeedback, hfv]
        rfl
      simp [decodeFeedbackList, hfv, List.all_cons, hv, isOkE]
    | ok f =>
      have hv : feedbackShapeOK v = true := by
        rw [← isOk_decodeFeedback, hfv]
        rfl
      cases hrest : decodeFeedbackList vs with
      | error e2 =>
        have h2 : vs.all feedbackShapeOK = false := by
          rw [← isOk_decodeFeedbackList vs, hrest]
          rfl
        simp [decodeFeedbackList, hfv, hrest, List.all_cons, hv, h2, isOkE]
      | ok rest =>
        have h2 : vs.all feedbackShapeOK = true := by
          rw [← isOk_decodeFeedbackList vs, hrest]
          rfl
        simp [decodeFeedbackList, hfv, hrest, List.all_cons, hv, h2, isOkE]

theorem isOk_decodeFeedbacksField (fields : List (String × JVal)) :
    isOkE (decodeFeedbacksField fields) = feedbacksFieldOK fields := by
  unfold decodeFeedbacksField feedbacksFieldOK
  cases getField fields "feedbacks" with
  | none => rfl
  | some v =>
    cases v with
    | arr items => exact isOk_decodeFeedbackList items
    | null => rfl
    | bool b => rfl
    | num q => rfl
    | str s2 => rfl
    | obj fs => rfl

theorem isOk_decodeAIReview (v : JVal) : isOkE (decodeAIReview v) = structuralOK v := by
  cases v with
  | null => rfl
  | bool b => rfl
  | num q => rfl
  | str s2 => rfl
  | arr items => rfl
  | obj fields =>
    simp only [decodeAIReview, structuralOK]
    rw [← isOk_decodeStringField fields "overall_status",
      ← isOk_decodeNumberField fields "confidence",
      ← isOk_decodeFeedbacksField fields]
    cases decodeStringField fields "overall_status" <;>
      cases decodeNumberField fields "confidence" <;>
      cases decodeFeedbacksField fields <;>
      rfl

/-- C7 counterexample: a response whose overall verdict is outside
{passed, failed, needs_improvement} and whose confidence exceeds 1 is accepted
by the decoder exactly as the code stands, refuting the claim that acceptance
requires those value constraints. -/
theorem c7_counterexample :
    reviewCodeAccept [some (JVal.obj [("overall_status", JVal.str "banana"),
      ("confidence", JVal.num (15/2)), ("feedbacks", JVal.arr [])])] =
      .ok ⟨"banana", 15/2, []⟩ ∧
    ("banana" ≠ "passed" ∧ "banana" ≠ "failed" ∧ "banana" ≠ "needs_improvement") ∧
    ¬((15/2 : Rat) ≤ 1) := by
  refine ⟨rfl, ⟨by decide, by decide, by decide⟩, by norm_num⟩

/-- C7 (amended): the AI response is accepted exactly when it is structurally
well typed JSON for the response schema — a parse or type mismatch anywhere
(including a missing envelope choice or unparsable content) makes ReviewCode
return an error — but no membership or range check is applied to the verdict,
the confidence or the severities. -/
theorem c7_accept_iff_shape (choices : List (Option JVal)) :
    isOkE (reviewCodeAccept choices) = acceptSpec choices := by
  cases choices with
  | nil => rfl
  | cons c rest =>
    cases c with
    | none => rfl
    | some v => exact isOk_decodeAIReview v

end FlutterCodeMentor
